import Mathlib

/-!
Verification of the buzzer melody player (envelope variant and its simpler
siblings).  The definitions below are a shallow embedding of the C++ sketch:
unsigned machine integers become natural numbers with an explicit `% 2^w`
wherever the C computation can wrap (the `uint16_t` result cast in
`ticksToMs`, the `uint32_t` cast of `levelEnd - levelStart` in the gate
interpolation, the final `uint8_t` truncation of the interpolated level);
timed output on the buzzer pin becomes a list of segments, each either
tone-on at a frequency or silence, with a duration in milliseconds.
-/

namespace BuzzerPlayer

/-- 2^32, the modulus of the C `uint32_t` arithmetic. -/
def U32 : Nat := 4294967296

/-- 2^16, the modulus of the C `uint16_t` arithmetic. -/
def U16 : Nat := 65536

/-- Source constant `GATE_PERIOD_MS = 3` (envelope sketch line 39). -/
def GATE_PERIOD_MS : Nat := 3

/-- Source constant `MIN_NOTE_MS_GAP = 8` (envelope sketch line 40). -/
def MIN_NOTE_MS_GAP : Nat := 8

/-- The attack/release envelope configuration: percentages of the note
duration and min/max millisecond clamps (envelope sketch lines 43 to 48). -/
structure EnvCfg where
  attackPct : Nat
  releasePct : Nat
  attackMinMs : Nat
  attackMaxMs : Nat
  releaseMinMs : Nat
  releaseMaxMs : Nat
deriving DecidableEq

/-- The configuration the envelope sketch fixes:
`ATTACK_PCT = 10`, `RELEASE_PCT = 12`, `ATTACK_MIN_MS = 10`,
`ATTACK_MAX_MS = 35`, `RELEASE_MIN_MS = 12`, `RELEASE_MAX_MS = 50`. -/
def defaultCfg : EnvCfg :=
  { attackPct := 10, releasePct := 12, attackMinMs := 10, attackMaxMs := 35,
    releaseMinMs := 12, releaseMaxMs := 50 }

/-- `ticksToMs` (envelope sketch lines 83 to 89, and the same formula in the
plain sketch lines 282 to 288): `(uint16_t)((ticks*60000 + den/2) / den)`
with `den = BPM * TICKS_PER_BEAT`.  The two sketches fix `bpm = 132` and
`bpm = 120` respectively, both with `tpb = 384`; the tempo is passed here as
arguments.  For `ticks < 2^16` the `uint32_t` intermediates cannot wrap
(`65535 * 60000 < 2^32`), so only the final `uint16_t` cast is modelled. -/
def ticksToMs (bpm tpb ticks : Nat) : Nat :=
  let num := ticks * 60000
  let den := bpm * tpb
  ((num + den / 2) / den) % U16

/-- Modelled from the spec: `ms = round(ticks * 60000 / (bpm * ticksPerBeat))`
with round-half-up, in exact integer arithmetic (no width truncation).
`(2*num + den) / (2*den)` is the floor of `num/den + 1/2`. -/
def roundHalfUp (num den : Nat) : Nat := (2 * num + den) / (2 * den)

/-- The two-sided clamp of the envelope sketch lines 124 to 128: first raise
to the minimum, then cap at the maximum. -/
def clampMinMax (lo hi x : Nat) : Nat :=
  let x1 := if x < lo then lo else x
  if x1 > hi then hi else x1

/-- Attack and release durations of `playToneWithEnvelope` (envelope sketch
lines 120 to 135): percentage of the note duration, min/max clamp, then the
short-note shrink `attackMs = min(attackMs, durMs/2);
releaseMs = min(releaseMs, durMs - attackMs)` when the envelope would not
fit. -/
def attackRelease (cfg : EnvCfg) (durMs : Nat) : Nat × Nat :=
  let a := clampMinMax cfg.attackMinMs cfg.attackMaxMs (durMs * cfg.attackPct / 100)
  let r := clampMinMax cfg.releaseMinMs cfg.releaseMaxMs (durMs * cfg.releasePct / 100)
  if durMs ≤ a + r then
    let half := durMs / 2
    let a2 := min a half
    (a2, min r (durMs - a2))
  else (a, r)

/-- `holdMs` of the envelope sketch line 137:
`(durMs > attackMs + releaseMs) ? durMs - attackMs - releaseMs : 0`. -/
def holdMsOf (cfg : EnvCfg) (durMs : Nat) : Nat :=
  let ar := attackRelease cfg durMs
  if ar.1 + ar.2 < durMs then durMs - ar.1 - ar.2 else 0

/-- Gate step count of the envelope sketch line 141:
`(ms / GATE_PERIOD_MS > 0) ? (ms / GATE_PERIOD_MS) : 1`. -/
def stepsOf (ms : Nat) : Nat :=
  if ms / GATE_PERIOD_MS > 0 then ms / GATE_PERIOD_MS else 1

/-- The interpolated envelope level of gate `s` (envelope sketch line 144):
`(uint8_t)(levelStart + (uint32_t)(levelEnd - levelStart) * s /
(steps - 1 ? steps - 1 : 1))`.  The subtraction is performed as C unsigned
32-bit arithmetic: for `levelEnd < levelStart` it wraps to
`2^32 + levelEnd - levelStart`, and the final cast truncates modulo 256. -/
def gateLvl (levelStart levelEnd steps s : Nat) : Nat :=
  (levelStart +
      (U32 + levelEnd - levelStart) % U32 * s % U32 /
        (if steps - 1 = 0 then 1 else steps - 1)) % U32 % 256

/-- Modelled from the spec: the linear interpolation the spec describes,
`levelStart + (levelEnd - levelStart) * s / max 1 (steps - 1)` in exact
signed integer arithmetic. -/
def specLinearLevel (levelStart levelEnd steps s : Int) : Int :=
  levelStart + (levelEnd - levelStart) * s / max 1 (steps - 1)

/-- One timed segment of buzzer output: tone on at `freq` for `ms`
milliseconds, or (for `isOn = false`) silence for `ms` milliseconds. -/
structure Seg where
  isOn : Bool
  freq : Nat
  ms : Nat
deriving DecidableEq

/-- The tone is audibly on somewhere in the segment list. -/
def SoundsOn (segs : List Seg) : Prop := ∃ seg ∈ segs, seg.isOn = true

instance (segs : List Seg) : Decidable (SoundsOn segs) := by
  unfold SoundsOn; infer_instance

/-- Total wall-clock time of a segment list, in milliseconds. -/
def totalMs (segs : List Seg) : Nat := (segs.map Seg.ms).sum

/-- One gate of the envelope sketch lines 146 to 154: tone on for
`onMs = GATE_PERIOD_MS * lvl / 255` milliseconds (skipped when zero), then
off for the remaining `GATE_PERIOD_MS - onMs`. -/
def gateSeg (freq lvl : Nat) : List Seg :=
  let onMs := GATE_PERIOD_MS * lvl / 255
  (if onMs > 0 then [⟨true, freq, onMs⟩] else []) ++
    (if GATE_PERIOD_MS - onMs > 0 then [⟨false, 0, GATE_PERIOD_MS - onMs⟩] else [])

/-- The `gateFor` lambda of the envelope sketch lines 139 to 156: an early
return for `ms = 0`, else `stepsOf ms` gates at the interpolated levels. -/
def gateFor (freq ms levelStart levelEnd : Nat) : List Seg :=
  if ms = 0 then []
  else (List.range (stepsOf ms)).flatMap fun s =>
    gateSeg freq (gateLvl levelStart levelEnd (stepsOf ms) s)

/-- The hold loop of the envelope sketch lines 162 to 174: `stepsOf holdMs`
gates at the constant level `volLevel`, skipped entirely when `holdMs = 0`.
(Source line 163 spells the step count with the identifier `ms`, which at
that point is not in scope - the lambda parameter of `gateFor` - so the
sketch as written is ill-formed C++; the count is modelled from the phase
length `holdMs`, the evident intent.) -/
def holdSegs (freq holdMs volLevel : Nat) : List Seg :=
  if holdMs > 0 then (List.range (stepsOf holdMs)).flatMap fun _ => gateSeg freq volLevel
  else []

/-- `playToneWithEnvelope` (envelope sketch lines 113 to 180): silence for
`durMs` when `freq == 0 || durMs == 0`, else attack, hold and release
phases.  The trailing `noTone` emits no timed segment. -/
def playToneWithEnvelope (freq durMs volLevel : Nat) : List Seg :=
  if freq = 0 ∨ durMs = 0 then [⟨false, 0, durMs⟩]
  else
    let ar := attackRelease defaultCfg durMs
    gateFor freq ar.1 0 volLevel ++
      holdSegs freq (holdMsOf defaultCfg durMs) volLevel ++
      gateFor freq ar.2 volLevel 0

/-- The inter-note gap of the envelope sketch lines 213 to 214:
`gap = MIN_NOTE_MS_GAP; if (durMs <= gap + 5) gap = 0`. -/
def gapOf (durMs : Nat) : Nat :=
  if durMs ≤ MIN_NOTE_MS_GAP + 5 then 0 else MIN_NOTE_MS_GAP

/-- The sounding duration of the envelope sketch line 216:
`(gap > 0) ? (durMs - gap) : durMs`. -/
def soundingMs (durMs : Nat) : Nat :=
  if gapOf durMs > 0 then durMs - gapOf durMs else durMs

/-- The note clamp of the envelope sketch lines 206 to 208: transposed note
forced into `[0, 127]`. -/
def clampNote (n : Int) : Int := if n < 0 then 0 else if n > 127 then 127 else n

/-- One iteration of the envelope sketch `loop` body (lines 191 to 223),
with the MIDI-to-frequency conversion supplied as a parameter `freqOf`:
a rest (`note < 0`) is `noTone` plus `delay(durMs)`; otherwise the note is
played for the sounding portion and the trailing gap (when any) is
silence. -/
def renderEvent (freqOf : Int → Nat) (bpm tpb : Nat) (note : Int) (ticks : Nat)
    (volLevel : Nat) (transpose : Int) : List Seg :=
  let durMs := ticksToMs bpm tpb ticks
  if note < 0 then [⟨false, 0, durMs⟩]
  else
    let freq := freqOf (clampNote (note + transpose))
    playToneWithEnvelope freq (soundingMs durMs) volLevel ++
      (if gapOf durMs > 0 then [⟨false, 0, gapOf durMs⟩] else [])

/-- `playRest` of the pause-button sketch (unnamed source, lines 186 to
194): tone off, then timed silence for `durMs` (the pause flag is modelled
as never pressed, so the polling loop is a plain wait). -/
def playRest (durMs : Nat) : List Seg := [⟨false, 0, durMs⟩]

/-- The exact frequency of a MIDI note, `440 * 2^((n - 69)/12)`, as the
comment on `midiNoteToFreq` states it (envelope sketch lines 91 to 94).
The C code computes it with `powf` on 32-bit floats; the embedding uses
exact real exponentiation. -/
noncomputable def rawFreq (midiNote : Int) : ℝ :=
  440 * (2 : ℝ) ^ (((midiNote : ℝ) - 69) / 12)

/-- `midiNoteToFreq` (envelope sketch lines 91 to 98): frequencies below
60 Hz become 0 (rest), frequencies above 4000 Hz clamp to 4000, otherwise
round to nearest via `(uint16_t)(f + 0.5f)`. -/
noncomputable def midiNoteToFreq (midiNote : Int) : Nat :=
  if rawFreq midiNote < 60 then 0
  else if 4000 < rawFreq midiNote then 4000
  else (⌊rawFreq midiNote + 1 / 2⌋).toNat

end BuzzerPlayer

namespace BuzzerPlayer

/-! ### Arithmetic helpers -/

/-- The rounding trick of `ticksToMs`: adding `den / 2` before a floor
division is exactly round-half-up, `(2*num + den) / (2*den)`. -/
theorem half_add_div (num den : Nat) (hden : 0 < den) :
    (num + den / 2) / den = (2 * num + den) / (2 * den) := by
  have hmod := Nat.div_add_mod (num + den / 2) den
  have hr : (num + den / 2) % den < den := Nat.mod_lt _ hden
  have hden2 := Nat.div_add_mod den 2
  have hm2 : den % 2 < 2 := Nat.mod_lt _ (by norm_num)
  set q := (num + den / 2) / den
  set r := (num + den / 2) % den
  obtain ⟨P, hP⟩ : ∃ P, den * q = P := ⟨_, rfl⟩
  rw [hP] at hmod
  symm
  apply Nat.div_eq_of_lt_le
  · have e : q * (2 * den) = 2 * P := by rw [← hP]; ring
    rw [e]
    omega
  · have e : (q + 1) * (2 * den) = 2 * P + 2 * den := by rw [← hP]; ring
    rw [e]
    omega

/-- A gate of any level below 85 renders as pure silence: the on-time
`3 * lvl / 255` is zero, so the whole gate is one off segment. -/
theorem gateSeg_silent (freq lvl : Nat) (h : lvl < 85) :
    gateSeg freq lvl = [⟨false, 0, GATE_PERIOD_MS⟩] := by
  unfold gateSeg GATE_PERIOD_MS
  have h0 : 3 * lvl / 255 = 0 := Nat.div_eq_of_lt (by omega)
  rw [h0]
  simp

/-- In an ascending phase (start level 0) the interpolated level never
exceeds the end level: no unsigned wrap can occur. -/
theorem gateLvl_ascending_le (v steps s : Nat) (hs : s < steps) (hv : v < 256) :
    gateLvl 0 v steps s ≤ v := by
  unfold gateLvl U32
  set den := if steps - 1 = 0 then 1 else steps - 1 with hden
  have hsd : s ≤ den := by
    rw [hden]; split <;> omega
  have hdpos : 0 < den := by
    rw [hden]; split <;> omega
  have hdiff : (4294967296 + v - 0) % 4294967296 = v := by omega
  rw [hdiff]
  have h1 : v * s % 4294967296 / den ≤ v :=
    calc v * s % 4294967296 / den ≤ v * s / den :=
          Nat.div_le_div_right (Nat.mod_le _ _)
    _ ≤ v * den / den := Nat.div_le_div_right (Nat.mul_le_mul_left _ hsd)
    _ = v := Nat.mul_div_cancel v hdpos
  generalize v * s % 4294967296 / den = x at h1 ⊢
  omega

end BuzzerPlayer

namespace BuzzerPlayer

/-! ### Claim C1 - the three envelope phases -/

/-- Claim C1, evaluated at the failing input `playToneWithEnvelope(440, 120,
255)`.  The rendering is indeed attack-then-hold-then-release with
`attackMs = 12`, `releaseMs = 14`, `holdMs = 94`, but the release phase is
not a linear ramp from the target level down to 0: the unsigned subtraction
in the interpolation yields the level sequence 255, 255, 170, 85 where the
linear interpolation the spec states yields 255, 170, 85, 0, so the final
release gate still drives the buzzer for 1 ms instead of fading to
silence. -/
theorem release_phase_eval :
    (List.range 4).map (gateLvl 255 0 4) = [255, 255, 170, 85] ∧
      (List.range 4).map (fun s => specLinearLevel 255 0 4 (s : Int)) =
        [255, 170, 85, 0] ∧
      attackRelease defaultCfg 120 = (12, 14) ∧
      holdMsOf defaultCfg 120 = 94 ∧
      playToneWithEnvelope 440 120 255 =
        gateFor 440 12 0 255 ++ holdSegs 440 94 255 ++ gateFor 440 14 255 0 ∧
      stepsOf 14 = 4 ∧
      Seg.mk true 440 1 ∈ gateFor 440 14 255 0 := by
  decide

/-! ### Claim C2 - the envelope always fits the note -/

/-- Claim C2: for every note duration and every envelope configuration, the
attack and release durations computed by `playToneWithEnvelope` satisfy
`attackMs + releaseMs ≤ durMs` after the percentage computation, the
min/max clamping and the short-note shrinking. -/
theorem attack_release_le_duration (cfg : EnvCfg) (durMs : Nat) :
    (attackRelease cfg durMs).1 + (attackRelease cfg durMs).2 ≤ durMs := by
  simp only [attackRelease]
  generalize clampMinMax cfg.attackMinMs cfg.attackMaxMs (durMs * cfg.attackPct / 100) = a
  generalize clampMinMax cfg.releaseMinMs cfg.releaseMaxMs (durMs * cfg.releasePct / 100) = r
  split
  · simp only
    omega
  · simp only
    omega

/-! ### Claim C3 - the short-note shrink -/

/-- Counterexample to claim C3: at `durMs = 15` the code computes
`attackMs = 7 = min(10, 15/2)` and `releaseMs = 8 = min(12, 15 - 7)`.  The
10:12 ratio of the minimums is not preserved (`7 * 12 = 84` while
`8 * 10 = 80`), so the shrink is not proportional. -/
theorem shrink_not_proportional_cex :
    attackRelease defaultCfg 15 = (7, 8) ∧
      12 * (attackRelease defaultCfg 15).1 ≠ 10 * (attackRelease defaultCfg 15).2 := by
  decide

/-- Claim C3 as amended: at `durMs = 15` with attack/release minimums 10
and 12, the code shrinks the attack to `min(attackMs, durMs/2) = 7` and the
release to `min(releaseMs, durMs - attackMs) = 8` (a clamp, not a
proportional scale); their sum does not exceed the note duration and the
hold phase is zero. -/
theorem shrink_clamped_at_15 :
    attackRelease defaultCfg 15 = (7, 8) ∧
      (attackRelease defaultCfg 15).1 + (attackRelease defaultCfg 15).2 ≤ 15 ∧
      holdMsOf defaultCfg 15 = 0 := by
  decide

/-! ### Claim C4 - gate rendering -/

/-- Claim C4, evaluated.  The step count and the on/off split match the
claim (`stepsOf 12 = 4`, `stepsOf 2 = 1`, a gate at level 200 is 2 ms on
then 1 ms off, at 255 fully on, at 10 fully off, and every gate lasts
`GATE_PERIOD_MS`), and the ascending interpolation agrees with the linear
formula; but in a descending phase the interpolation is not linear: at
`steps = 4`, `s = 1` from level 255 down to 0 the code computes 255 where
`levelStart + (levelEnd - levelStart) * s / max 1 (steps-1)` gives 170. -/
theorem gate_interp_wraparound_eval :
    stepsOf 12 = 4 ∧ stepsOf 2 = 1 ∧
      gateLvl 255 0 4 1 = 255 ∧ specLinearLevel 255 0 4 1 = 170 ∧
      gateLvl 0 255 4 1 = 85 ∧ specLinearLevel 0 255 4 1 = 85 ∧
      gateSeg 440 200 = [⟨true, 440, 2⟩, ⟨false, 0, 1⟩] ∧
      gateSeg 440 255 = [⟨true, 440, 3⟩] ∧
      gateSeg 440 10 = [⟨false, 0, 3⟩] ∧
      totalMs (gateSeg 440 200) = GATE_PERIOD_MS := by
  decide

/-! ### Claim C6 - ticks to milliseconds -/

/-- Counterexample to claim C6: `ticksToMs` does not equal the exact
round-half-up value for every ticks input, because the result is truncated
to `uint16_t`.  At 132 BPM, 384 ticks per beat and `ticks = 65535` the
exact rounding is 77575, but the code returns `77575 % 65536 = 12039`. -/
theorem ticksToMs_uint16_wrap_cex :
    ticksToMs 132 384 65535 = 12039 ∧
      roundHalfUp (65535 * 60000) (132 * 384) = 77575 ∧
      ticksToMs 132 384 65535 ≠ roundHalfUp (65535 * 60000) (132 * 384) := by
  decide

/-- Claim C6 as amended: whenever the exact rounded value fits in 16 bits,
`ticksToMs(ticks)` equals `round(ticks * 60000 / (bpm * ticksPerBeat))`
with round-half-up in exact integer arithmetic; in particular at 120 BPM
with 384 ticks per beat, `ticksToMs 384 = 500`. -/
theorem ticksToMs_round_half_up (bpm tpb ticks : Nat) (hden : 0 < bpm * tpb)
    (hfit : roundHalfUp (ticks * 60000) (bpm * tpb) < 65536) :
    ticksToMs bpm tpb ticks = roundHalfUp (ticks * 60000) (bpm * tpb) ∧
      ticksToMs 120 384 384 = 500 := by
  constructor
  · simp only [ticksToMs, roundHalfUp, U16] at hfit ⊢
    rw [half_add_div _ _ hden]
    exact Nat.mod_eq_of_lt hfit
  · decide

/-- Witness for `ticksToMs_round_half_up` at 120 BPM, 384 ticks per beat,
384 ticks. -/
theorem ticksToMs_round_half_up_witness :
    0 < 120 * 384 ∧ roundHalfUp (384 * 60000) (120 * 384) < 65536 ∧
      (ticksToMs 120 384 384 = roundHalfUp (384 * 60000) (120 * 384) ∧
        ticksToMs 120 384 384 = 500) :=
  ⟨by norm_num, by decide, ticksToMs_round_half_up 120 384 384 (by norm_num) (by decide)⟩

/-! ### Claim C7 - monotonicity of ticksToMs -/

/-- Counterexample to claim C7: over the whole `uint16_t` input range
`ticksToMs` is not monotone at fixed tempo.  At 132 BPM and 384 ticks per
beat, `ticksToMs 55364 = 65535` but `ticksToMs 55365 = 0`: the exact
quotient crosses 65536 and the result cast wraps. -/
theorem ticksToMs_not_monotone_cex :
    (55364 : Nat) ≤ 55365 ∧ ticksToMs 132 384 55364 = 65535 ∧
      ticksToMs 132 384 55365 = 0 ∧
      ¬ ticksToMs 132 384 55364 ≤ ticksToMs 132 384 55365 := by
  decide

/-- Claim C7 as amended: at fixed tempo `ticksToMs` is monotone
non-decreasing on the range where the exact quotient still fits in 16 bits
(before the `uint16_t` wrap), and `ticksToMs 0 = 0`. -/
theorem ticksToMs_monotone_in_range (bpm tpb t1 t2 : Nat) (h12 : t1 ≤ t2)
    (hfit : (t2 * 60000 + bpm * tpb / 2) / (bpm * tpb) < 65536) :
    ticksToMs bpm tpb t1 ≤ ticksToMs bpm tpb t2 ∧ ticksToMs bpm tpb 0 = 0 := by
  constructor
  · have hmono : (t1 * 60000 + bpm * tpb / 2) / (bpm * tpb) ≤
        (t2 * 60000 + bpm * tpb / 2) / (bpm * tpb) := by
      refine Nat.div_le_div_right ?_
      have : t1 * 60000 ≤ t2 * 60000 := by omega
      omega
    simp only [ticksToMs, U16]
    rw [Nat.mod_eq_of_lt (lt_of_le_of_lt hmono hfit), Nat.mod_eq_of_lt hfit]
    exact hmono
  · simp only [ticksToMs, U16]
    rcases Nat.eq_zero_or_pos (bpm * tpb) with h | h
    · simp [h]
    · rw [Nat.zero_mul, Nat.zero_add,
        Nat.div_eq_of_lt (Nat.div_lt_self h (by norm_num))]

/-- Witness for `ticksToMs_monotone_in_range` at 132 BPM, 384 ticks per
beat, ticks 100 and 200. -/
theorem ticksToMs_monotone_witness :
    (100 : Nat) ≤ 200 ∧ (200 * 60000 + 132 * 384 / 2) / (132 * 384) < 65536 ∧
      (ticksToMs 132 384 100 ≤ ticksToMs 132 384 200 ∧ ticksToMs 132 384 0 = 0) :=
  ⟨by norm_num, by decide,
    ticksToMs_monotone_in_range 132 384 100 200 (by norm_num) (by decide)⟩

/-! ### Claim C8 - the inter-note gap -/

/-- Counterexample to claim C8: a note of 10 ms exceeds the fixed gap of
8 ms, yet the code subtracts nothing - the gap is dropped whenever
`durMs <= gap + 5`, so the note plays its full 10 ms, not `10 - 8`. -/
theorem gap_threshold_cex :
    MIN_NOTE_MS_GAP < 10 ∧ gapOf 10 = 0 ∧ soundingMs 10 = 10 ∧
      soundingMs 10 ≠ 10 - MIN_NOTE_MS_GAP := by
  decide

/-- Claim C8 as amended: the gap is subtracted exactly when the duration
exceeds `gap + 5` (13 ms) - then sounding duration plus trailing silent gap
equals the event duration - and otherwise the note plays its full duration
with no gap. -/
theorem gap_rule (durMs : Nat) :
    (MIN_NOTE_MS_GAP + 5 < durMs →
        gapOf durMs = MIN_NOTE_MS_GAP ∧
        soundingMs durMs = durMs - MIN_NOTE_MS_GAP ∧
        soundingMs durMs + gapOf durMs = durMs) ∧
      (durMs ≤ MIN_NOTE_MS_GAP + 5 → gapOf durMs = 0 ∧ soundingMs durMs = durMs) := by
  unfold soundingMs gapOf MIN_NOTE_MS_GAP
  split_ifs <;> omega

end BuzzerPlayer

namespace BuzzerPlayer

/-! ### Claim C9 - rests are silent -/

/-- Claim C9: a rest event (`note < 0`) renders as silence for the
converted millisecond duration and the tone output is never enabled, in
the envelope sketch loop body as well as in `playRest` of the pause-button
sketch. -/
theorem rest_renders_silence (freqOf : Int → Nat) (bpm tpb : Nat) (note : Int)
    (ticks volLevel : Nat) (transpose : Int) (restMs : Nat) (hnote : note < 0) :
    ¬ SoundsOn (renderEvent freqOf bpm tpb note ticks volLevel transpose) ∧
      totalMs (renderEvent freqOf bpm tpb note ticks volLevel transpose) =
        ticksToMs bpm tpb ticks ∧
      ¬ SoundsOn (playRest restMs) ∧ totalMs (playRest restMs) = restMs := by
  simp only [renderEvent, playRest]
  rw [if_pos hnote]
  refine ⟨?_, ?_, ?_, ?_⟩ <;> simp [SoundsOn, totalMs]

/-- Witness for `rest_renders_silence`: the rest `note = -1, ticks = 200`
at 120 BPM, 384 ticks per beat. -/
theorem rest_renders_silence_witness :
    ((-1 : Int) < 0) ∧
      (¬ SoundsOn (renderEvent (fun _ => 440) 120 384 (-1) 200 128 0) ∧
        totalMs (renderEvent (fun _ => 440) 120 384 (-1) 200 128 0) =
          ticksToMs 120 384 200 ∧
        ¬ SoundsOn (playRest 200) ∧ totalMs (playRest 200) = 200) :=
  ⟨by norm_num,
    rest_renders_silence (fun _ => 440) 120 384 (-1) 200 128 0 200 (by norm_num)⟩

/-! ### Claim C10 - sub-85 levels and silence -/

/-- Counterexample to claim C10: at the nonzero loudness level 10 (below
85, and the lowest value the volume-pot mapping produces) the per-gate
on-time `3 * 10 / 255` is indeed 0, yet the note is not fully silent:
`playToneWithEnvelope(440, 100, 10)` still turns the tone on, because the
descending release interpolation wraps to levels 92, 88, 85 - all above
84 - even though the target level is 10. -/
theorem low_volume_note_sounds_cex :
    (0 : Nat) < 10 ∧ (10 : Nat) < 85 ∧ GATE_PERIOD_MS * 10 / 255 = 0 ∧
      (List.range 4).map (gateLvl 10 0 4) = [10, 92, 88, 85] ∧
      SoundsOn (playToneWithEnvelope 440 100 10) := by
  decide

/-- Claim C10 as amended: for every level below 85 the per-gate on-time
`GATE_PERIOD_MS * lvl / 255` is 0 under integer division, so every gate
whose level stays below 85 emits no tone; with a requested loudness below
85 the whole attack phase and the whole hold phase render silent.  (The
release phase is not covered: its wrapped interpolation can exceed 84 and
sound, as the counterexample shows.) -/
theorem low_level_gates_silent (freq attackLen holdLen volLevel : Nat)
    (hv : volLevel < 85) :
    GATE_PERIOD_MS * volLevel / 255 = 0 ∧
      ¬ SoundsOn (gateFor freq attackLen 0 volLevel) ∧
      ¬ SoundsOn (holdSegs freq holdLen volLevel) := by
  refine ⟨?_, ?_, ?_⟩
  · unfold GATE_PERIOD_MS
    exact Nat.div_eq_of_lt (by omega)
  · rintro ⟨seg, hmem, hon⟩
    unfold gateFor at hmem
    split at hmem
    · simp at hmem
    · rw [List.mem_flatMap] at hmem
      obtain ⟨s, hs, hseg⟩ := hmem
      rw [List.mem_range] at hs
      have hlvl := gateLvl_ascending_le volLevel (stepsOf attackLen) s hs (by omega)
      rw [gateSeg_silent _ _ (by omega)] at hseg
      rw [List.mem_singleton] at hseg
      rw [hseg] at hon
      simp at hon
  · rintro ⟨seg, hmem, hon⟩
    unfold holdSegs at hmem
    split at hmem
    · rw [List.mem_flatMap] at hmem
      obtain ⟨s, hs, hseg⟩ := hmem
      rw [gateSeg_silent _ _ hv] at hseg
      rw [List.mem_singleton] at hseg
      rw [hseg] at hon
      simp at hon
    · simp at hmem

/-- Witness for `low_level_gates_silent` at level 10 with the attack and
hold lengths of a 100 ms note. -/
theorem low_level_gates_silent_witness :
    (10 : Nat) < 85 ∧
      (GATE_PERIOD_MS * 10 / 255 = 0 ∧
        ¬ SoundsOn (gateFor 440 10 0 10) ∧
        ¬ SoundsOn (holdSegs 440 78 10)) :=
  ⟨by decide, low_level_gates_silent 440 10 78 10 (by decide)⟩

end BuzzerPlayer

namespace BuzzerPlayer

/-! ### Claim C5 - MIDI note to frequency -/

/-- MIDI note 0 is below the 60 Hz audibility threshold:
`440 * 2^(-69/12) ≤ 440 * 2^(-5) = 13.75 < 60`. -/
theorem rawFreq_inaudible : rawFreq 0 < 60 := by
  have hexp : (2 : ℝ) ^ ((((0 : Int) : ℝ) - 69) / 12) ≤ (2 : ℝ) ^ (-5 : ℝ) := by
    apply (Real.rpow_le_rpow_left_iff one_lt_two).mpr
    norm_num
  have h32 : (2 : ℝ) ^ (-5 : ℝ) = 1 / 32 := by
    have h5 : ((5 : ℕ) : ℝ) = (5 : ℝ) := by norm_num
    rw [Real.rpow_neg (by norm_num), ← h5, Real.rpow_natCast]
    norm_num
  unfold rawFreq
  calc 440 * (2 : ℝ) ^ ((((0 : Int) : ℝ) - 69) / 12) ≤ 440 * (1 / 32) := by
        rw [← h32]
        exact mul_le_mul_of_nonneg_left hexp (by norm_num)
  _ < 60 := by norm_num

/-- MIDI note 120 is above the 4000 Hz clamp:
`440 * 2^(51/12) ≥ 440 * 2^4 = 7040 > 4000`. -/
theorem rawFreq_above_clamp : 4000 < rawFreq 120 := by
  have hexp : (2 : ℝ) ^ (4 : ℝ) ≤ (2 : ℝ) ^ ((((120 : Int) : ℝ) - 69) / 12) := by
    apply (Real.rpow_le_rpow_left_iff one_lt_two).mpr
    norm_num
  have h16 : (2 : ℝ) ^ (4 : ℝ) = 16 := by
    have h4 : ((4 : ℕ) : ℝ) = (4 : ℝ) := by norm_num
    rw [← h4, Real.rpow_natCast]
    norm_num
  unfold rawFreq
  calc (4000 : ℝ) < 440 * 16 := by norm_num
  _ = 440 * (2 : ℝ) ^ (4 : ℝ) := by rw [h16]
  _ ≤ 440 * (2 : ℝ) ^ ((((120 : Int) : ℝ) - 69) / 12) :=
      mul_le_mul_of_nonneg_left hexp (by norm_num)

/-- Claim C5: `midiNoteToFreq 69 = 440`; every note whose exact frequency
`440 * 2^((n - 69)/12)` is below 60 Hz maps to 0 (silence); every note
whose exact frequency exceeds 4000 Hz maps to exactly 4000. -/
theorem midiNoteToFreq_spec :
    midiNoteToFreq 69 = 440 ∧
      (∀ n : Int, rawFreq n < 60 → midiNoteToFreq n = 0) ∧
      (∀ n : Int, 4000 < rawFreq n → midiNoteToFreq n = 4000) := by
  refine ⟨?_, fun n h => ?_, fun n h => ?_⟩
  · have h69 : rawFreq 69 = 440 := by
      unfold rawFreq
      have e : ((((69 : Int) : ℝ) - 69) / 12) = 0 := by norm_num
      rw [e, Real.rpow_zero]
      norm_num
    unfold midiNoteToFreq
    rw [h69, if_neg (by norm_num), if_neg (by norm_num)]
    have hfl : ⌊(440 : ℝ) + 1 / 2⌋ = 440 := by
      rw [Int.floor_eq_iff]
      constructor <;> norm_num
    rw [hfl]
    rfl
  · unfold midiNoteToFreq
    rw [if_pos h]
  · unfold midiNoteToFreq
    rw [if_neg (by linarith), if_pos h]

/-- Witness for `midiNoteToFreq_spec`: note 0 is inaudible and maps to 0;
note 120 exceeds the ceiling and maps to 4000. -/
theorem midiNoteToFreq_spec_witness :
    rawFreq 0 < 60 ∧ midiNoteToFreq 0 = 0 ∧
      4000 < rawFreq 120 ∧ midiNoteToFreq 120 = 4000 :=
  ⟨rawFreq_inaudible, midiNoteToFreq_spec.2.1 0 rawFreq_inaudible,
    rawFreq_above_clamp, midiNoteToFreq_spec.2.2 120 rawFreq_above_clamp⟩

end BuzzerPlayer
